import Mathlib

/-!
Shallow embedding of the kernel-module inventory pipeline of
list_kernel_modules.py and of the kernel_modules package, with proofs of the
specification claims about it.

Strings coming from the operating system (file contents, command output) are
passed in as explicit inputs; external collaborators (modinfo invocation, ELF
metadata extraction, glob results, stat results) are modeled as oracle
functions or pre-computed inputs, matching the spec boundary in section 1.
Python sets are modeled as insertion-ordered duplicate-free lists, which
preserves every membership fact. The stable Timsort behind sorted() and
list.sort() is modeled by the stable List.insertionSort.
-/

namespace KMod

/-- Whitespace as recognised by str.split and str.strip on the ASCII inputs
that occur in this pipeline. -/
def isWs (c : Char) : Bool := c = ' ' || c = '\t' || c = '\n' || c = '\r'

/-- Helper for pySplitWs: accumulates the current token in reverse. -/
def wsSplitAux : List Char → List Char → List String
  | [], cur => if cur = [] then [] else [⟨cur.reverse⟩]
  | c :: rest, cur =>
    if isWs c then
      if cur = [] then wsSplitAux rest []
      else ⟨cur.reverse⟩ :: wsSplitAux rest []
    else wsSplitAux rest (c :: cur)

/-- Python str.split() with no argument: split on runs of whitespace,
dropping empty tokens. -/
def pySplitWs (s : String) : List String := wsSplitAux s.data []

/-- Helper for pySplitComma. -/
def commaSplitAux : List Char → List Char → List String
  | [], cur => [⟨cur.reverse⟩]
  | c :: rest, cur =>
    if c = ',' then ⟨cur.reverse⟩ :: commaSplitAux rest []
    else commaSplitAux rest (c :: cur)

/-- Python s.split(&#44;-separator): keeps empty tokens. -/
def pySplitComma (s : String) : List String := commaSplitAux s.data []

/-- Python str.strip(): drop whitespace from both ends. -/
def pyStrip (s : String) : String :=
  ⟨((s.data.dropWhile isWs).reverse.dropWhile isWs).reverse⟩

/-- Python s.startswith(single character c). -/
def strStarts (s : String) (c : Char) : Bool :=
  match s.data with
  | [] => false
  | a :: _ => a = c

/-- Python s.endswith(suf). -/
def strEnds (s suf : String) : Bool :=
  if suf.data.length ≤ s.data.length then
    s.data.drop (s.data.length - suf.data.length) == suf.data
  else false

/-- Python slicing s[:-n]. -/
def strDropLast (s : String) (n : Nat) : String :=
  ⟨s.data.take (s.data.length - n)⟩

/-- os.path.basename for the slash-separated paths this program handles:
the characters after the last slash. -/
def basename (p : String) : String :=
  ⟨(p.data.reverse.takeWhile (fun c => c ≠ '/')).reverse⟩

/-- Python s.replace(".ko", ""): remove every occurrence, left to right. -/
def replaceKo : List Char → List Char
  | '.' :: 'k' :: 'o' :: rest => replaceKo rest
  | c :: rest => c :: replaceKo rest
  | [] => []

/-- The name derivation of get_builtin_modules_from_modules_builtin:
os.path.basename(line).replace(".ko", ""). -/
def stripKoAll (s : String) : String := ⟨replaceKo s.data⟩

/-- ASCII lower-casing, as str.lower acts on the ASCII names here. -/
def lowerChar (c : Char) : Char :=
  if 'A' ≤ c ∧ c ≤ 'Z' then Char.ofNat (c.toNat + 32) else c

/-- Python str.lower() on ASCII strings. -/
def pyLower (s : String) : String := ⟨s.data.map lowerChar⟩

/-- Code-point comparison of character lists; this is how Python compares
two str values. -/
def listCharLe : List Char → List Char → Bool
  | [], _ => true
  | _ :: _, [] => false
  | a :: as, b :: bs =>
    if a.toNat < b.toNat then true
    else if b.toNat < a.toNat then false
    else listCharLe as bs

/-- Python string comparison a ≤ b. -/
def pyStrLe (a b : String) : Bool := listCharLe a.data b.data

/-- Digits of a Python int literal after the first one: single underscores
may separate digits. -/
def pyDigitsRest : List Char → Bool
  | [] => true
  | c :: rest =>
    if c = '_' then
      match rest with
      | [] => false
      | d :: rest2 => d.isDigit && pyDigitsRest rest2
    else c.isDigit && pyDigitsRest rest

/-- A valid Python base-10 digit sequence: nonempty, starts with a digit. -/
def pyDigitsOk : List Char → Bool
  | [] => false
  | c :: rest => c.isDigit && pyDigitsRest rest

/-- Numeric value of a digit sequence, skipping underscores. -/
def digitsVal (cs : List Char) : Nat :=
  cs.foldl (fun acc c => if c = '_' then acc else acc * 10 + (c.toNat - 48)) 0

/-- Python int(s) for base 10: optional sign, then digits with single
underscores between digits; none models the ValueError raised on a
malformed literal. The tokens fed to it here come from str.split(), so they
never carry surrounding whitespace. -/
def pyInt (s : String) : Option Int :=
  match s.data with
  | '+' :: rest => if pyDigitsOk rest then some (Int.ofNat (digitsVal rest)) else none
  | '-' :: rest => if pyDigitsOk rest then some (-(Int.ofNat (digitsVal rest))) else none
  | cs => if pyDigitsOk cs then some (Int.ofNat (digitsVal cs)) else none

/-- Errors this embedding distinguishes: ValueError from int() and TypeError
from a bad call or an unsupported comparison. -/
inductive PyError
  | valueError
  | typeError
deriving Repr, DecidableEq

/-- KernelModule of list_kernel_modules.py (ten fields). -/
structure KernelModule where
  name : String
  size : Int
  ref_count : Int
  dependencies : List String
  status : String
  address : String
  module_type : String
  file_path : String
  description : String
  signed : String
deriving Repr, DecidableEq

/-- BuiltinModule record (both copies of the class have these fields). -/
structure BuiltinModule where
  name : String
  description : String
  version : String
  author : String
  license : String
deriving Repr, DecidableEq

/-- Builds the default BuiltinModule(name), all other fields defaulted. -/
def mkBuiltin (n : String) : BuiltinModule :=
  { name := n, description := "", version := "", author := "", license := "" }

/-- Oracle for the external enrichment collaborators used while parsing the
loaded-module listing: modinfo -n, description extraction, and the signature
check on the module file. -/
structure Enrich where
  filePathOf : String → String
  descriptionOf : String → String
  signedOf : String → Option Bool

/-- The signed string of parse_proc_modules: Yes if the flag is True, No if
it is False, Unknown if it is None. -/
def signedStr : Option Bool → String
  | some true => "Yes"
  | some false => "No"
  | none => "Unknown"

/-- The token condition of the dependency comprehension: nonempty after
stripping and not starting with a bracket. -/
def depKeep (t : String) : Bool := t != "" && !(strStarts t '[')

/-- Dependency-field parsing of parse_proc_modules: "-" means no
dependencies; otherwise split on commas and keep the stripped tokens that
are nonempty and do not begin with a bracket, in order. -/
def parseDeps (deps_str : String) : List String :=
  if deps_str = "-" then []
  else
    ((pySplitComma deps_str).filter (fun dep => depKeep (pyStrip dep))).map pyStrip

/-- The six whitespace-separated fields of a stripped line, shared by both
parser copies. -/
def lineFields (line : String) : List String := pySplitWs (pyStrip line)

/-- One iteration of the parse_proc_modules loop: none skips the line,
error models the ValueError escaping from int(). The file path is computed
once in the source and reused for the signature check; with the pure oracle
the repeated applications below denote that single value. -/
def parseLine (env : Enrich) (rawLine : String) : Except PyError (Option KernelModule) :=
  if pyStrip rawLine = "" then .ok none
  else if (lineFields rawLine).length < 6 then .ok none
  else
    match pyInt ((lineFields rawLine).getD 1 ""),
        pyInt ((lineFields rawLine).getD 2 "") with
    | some size, some ref_count =>
      .ok (some
        { name := (lineFields rawLine).getD 0 ""
          size := size
          ref_count := ref_count
          dependencies := parseDeps ((lineFields rawLine).getD 3 "")
          status := (lineFields rawLine).getD 4 ""
          address := (lineFields rawLine).getD 5 ""
          module_type := "loadable"
          file_path := env.filePathOf ((lineFields rawLine).getD 0 "")
          description := env.descriptionOf ((lineFields rawLine).getD 0 "")
          signed := signedStr
            (env.signedOf (env.filePathOf ((lineFields rawLine).getD 0 ""))) })
    | _, _ => .error .valueError

/-- The per-line loop shared by both copies of the parser: skip on none,
abort on the first error discarding every record, collect records in input
order otherwise. -/
def exceptLoop {β : Type} (f : String → Except PyError (Option β)) :
    List String → Except PyError (List β)
  | [] => .ok []
  | line :: rest =>
    match f line with
    | .error e => .error e
    | .ok none => exceptLoop f rest
    | .ok (some m) => (exceptLoop f rest).map (fun ms => m :: ms)

/-- list_kernel_modules.parse_proc_modules over the listing given as lines.
An error models the fatal sys.exit path: no records are returned. -/
def parse_proc_modules (env : Enrich) (lines : List String) :
    Except PyError (List KernelModule) :=
  exceptLoop (parseLine env) lines

/-- Python set insert, modeled on duplicate-free lists in insertion order. -/
def listInsert (l : List String) (x : String) : List String :=
  if x ∈ l then l else l ++ [x]

/-- Python set.update, element by element. -/
def listUnion (a b : List String) : List String := b.foldl listInsert a

/-- Python set difference a - b. -/
def listDiff (a b : List String) : List String := a.filter (fun x => x ∉ b)

/-- Inputs of the builtin-module source set: the loaded-module listing, the
modules.builtin file (existence flag and lines), and the results of the two
fallback producers, whose own inputs (kernel config text, modinfo -a output)
are external per the spec; get_builtin_modules_from_kallsyms always returns
the empty set in the source and is dropped here. -/
structure BuiltinEnv where
  procModulesLines : List String
  modulesBuiltinExists : Bool
  modulesBuiltinLines : List String
  configNames : List String
  modinfoModules : List BuiltinModule

/-- One line of get_loadable_module_names: add the first field of a
nonempty line to the set. -/
def loadStep (acc : List String) (rawLine : String) : List String :=
  if pyStrip rawLine ≠ "" then
    match pySplitWs (pyStrip rawLine) with
    | [] => acc
    | w :: _ => listInsert acc w
  else acc

/-- get_loadable_module_names: the first field of every nonempty line of the
loaded-module listing, collected as a set. -/
def get_loadable_module_names (lines : List String) : List String :=
  lines.foldl loadStep []

/-- get_builtin_modules_from_modules_builtin: for every nonempty line of the
authoritative file, basename with every ".ko" occurrence removed; empty set
when the file does not exist. -/
def get_builtin_modules_from_modules_builtin (env : BuiltinEnv) : List String :=
  if env.modulesBuiltinExists then
    env.modulesBuiltinLines.foldl
      (fun acc rawLine =>
        let line := pyStrip rawLine
        if line ≠ "" then listInsert acc (stripKoAll (basename line)) else acc) []
  else []

/-- The module_names set of get_all_builtin_modules: membership comes from
the authoritative file when it yields names, otherwise from the union of the
fallback producers minus the currently loaded names. -/
def builtinModuleNames (env : BuiltinEnv) : List String :=
  if get_builtin_modules_from_modules_builtin env = [] then
    listDiff
      (listUnion (listUnion (get_builtin_modules_from_modules_builtin env) env.configNames)
        (env.modinfoModules.map (fun m => m.name)))
      (get_loadable_module_names env.procModulesLines)
  else get_builtin_modules_from_modules_builtin env

/-- The record chosen for one builtin name: the first matching modinfo
record if any, else a default record. -/
def builtinPick (env : BuiltinEnv) (n : String) : BuiltinModule :=
  match env.modinfoModules.find? (fun m => m.name == n) with
  | some m => m
  | none => mkBuiltin n

/-- get_all_builtin_modules of list_kernel_modules.py. -/
def get_all_builtin_modules (env : BuiltinEnv) : List BuiltinModule :=
  (builtinModuleNames env).map (builtinPick env)

/-- A module file found by the disk scan: its path and the stat size, none
modeling the OSError branch of os.path.getsize. -/
structure DiskFile where
  path : String
  statSize : Option Int
deriving Repr, DecidableEq

/-- The dictionaries built by get_unloaded_modules. -/
structure UnloadedModule where
  name : String
  file_path : String
  size : Int
  description : String
deriving Repr, DecidableEq

/-- Module-name derivation of the scan: strip ".ko.zst" from the basename
first, else strip ".ko". -/
def deriveModuleName (p : String) : String :=
  let b := basename p
  if strEnds b ".ko.zst" then strDropLast b 7
  else if strEnds b ".ko" then strDropLast b 3
  else b

/-- Name order on unloaded records, the key of the final sort. -/
def unloadedLe (a b : UnloadedModule) : Prop := pyStrLe a.name b.name = true

instance : DecidableRel unloadedLe := fun a b =>
  inferInstanceAs (Decidable (pyStrLe a.name b.name = true))

/-- get_unloaded_modules: dirExists models os.path.exists on the module
directory; files is the concatenation of the glob results for the two
patterns in the order the code iterates them; descOf models
get_module_description_from_file. Files whose derived name is already
loaded are skipped, a failed stat degrades to size zero, and the result is
sorted by name. -/
def mkUnloaded (descOf : String → String) (f : DiskFile) : UnloadedModule :=
  { name := deriveModuleName f.path
    file_path := f.path
    size := f.statSize.getD 0
    description := descOf f.path }

/-- One file of the scan loop: skip when the derived name is loaded, else
append the record. -/
def scanStep (loaded_names : List String) (descOf : String → String)
    (acc : List UnloadedModule) (f : DiskFile) : List UnloadedModule :=
  if deriveModuleName f.path ∈ loaded_names then acc
  else acc ++ [mkUnloaded descOf f]

def get_unloaded_modules (loaded_modules : List KernelModule)
    (dirExists : Bool) (files : List DiskFile) (descOf : String → String) :
    List UnloadedModule :=
  if !dirExists then []
  else
    let loaded_names := loaded_modules.map (fun m => m.name)
    let recs := files.foldl (scanStep loaded_names descOf) []
    recs.insertionSort unloadedLe

/-- The values flowing through the filter and sort engine: the code holds
KernelModule and BuiltinModule objects in one list and branches on
isinstance; the unloaded dictionaries share a name field and take the same
non-loaded branch. -/
inductive PyModule
  | kernel (m : KernelModule)
  | builtin (m : BuiltinModule)
  | unloaded (m : UnloadedModule)
deriving Repr, DecidableEq

/-- The name attribute every record carries. -/
def PyModule.name : PyModule → String
  | .kernel m => m.name
  | .builtin m => m.name
  | .unloaded m => m.name

/-- isinstance(module, KernelModule). -/
def PyModule.isKernel : PyModule → Bool
  | .kernel _ => true
  | _ => false

/-- The name test of filter_modules: `if name_pattern and not fnmatch(...)`;
None and the empty pattern are falsy, so they disable the test. The glob
matcher itself is the external fnmatch collaborator. -/
def passesName (fnmatchFn : String → String → Bool)
    (name_pattern : Option String) (m : PyModule) : Bool :=
  match name_pattern with
  | some p => if p ≠ "" && !fnmatchFn m.name p then false else true
  | none => true

/-- The size, refcount and status tests applied to a KernelModule record;
a None criterion (and for status also the empty string, which is falsy)
disables its test. -/
def kernelCrit (min_size max_size min_refs : Option Int) (status : Option String)
    (k : KernelModule) : Bool :=
  (match min_size with | some s => decide (s ≤ k.size) | none => true) &&
  (match max_size with | some s => decide (k.size ≤ s) | none => true) &&
  (match min_refs with | some r => decide (r ≤ k.ref_count) | none => true) &&
  (match status with
   | some st => if st ≠ "" then k.status == st else true
   | none => true)

/-- filter_modules: the name test applies to every record; the remaining
criteria apply only inside the isinstance(module, KernelModule) branch. -/
def filter_modules (fnmatchFn : String → String → Bool)
    (modules : List PyModule) (name_pattern : Option String)
    (min_size max_size min_refs : Option Int) (status : Option String) :
    List PyModule :=
  modules.filter (fun m =>
    passesName fnmatchFn name_pattern m &&
    (match m with
     | .kernel k => kernelCrit min_size max_size min_refs status k
     | _ => true))

/-- Python sort keys are either ints or strings here. -/
inductive PyKey
  | int (n : Int)
  | str (s : String)
deriving Repr, DecidableEq

/-- Key kind tests. -/
def PyKey.isInt : PyKey → Bool
  | .int _ => true
  | _ => false

/-- Key kind tests. -/
def PyKey.isStr : PyKey → Bool
  | .str _ => true
  | _ => false

/-- The sort_key closure of sort_modules: the elif chain falls through to the
lower-cased name whenever the field branch does not apply to the record. -/
def sort_key (sort_by : String) (m : PyModule) : PyKey :=
  if sort_by = "name" then .str (pyLower m.name)
  else if sort_by = "size" then
    match m with
    | .kernel k => .int k.size
    | _ => .str (pyLower m.name)
  else if sort_by = "refs" then
    match m with
    | .kernel k => .int k.ref_count
    | _ => .str (pyLower m.name)
  else if sort_by = "status" then
    match m with
    | .kernel k => .str k.status
    | _ => .str (pyLower m.name)
  else .str (pyLower m.name)

/-- Order on sort keys of one kind; the cross-kind cases are never used
because CPython raises before comparing an int with a str (see
pySortedByKey); the values chosen here make the relation a total
preorder. -/
def keyLe : PyKey → PyKey → Bool
  | .int a, .int b => decide (a ≤ b)
  | .str a, .str b => pyStrLe a b
  | .int _, .str _ => true
  | .str _, .int _ => false

/-- The element order induced by a key function. -/
def keyRel (key : PyModule → PyKey) (a b : PyModule) : Prop :=
  keyLe (key a) (key b) = true

instance (key : PyModule → PyKey) : DecidableRel (keyRel key) := fun a b =>
  inferInstanceAs (Decidable (keyLe (key a) (key b) = true))

/-- CPython sorted(key, reverse): comparing an int key with a str key raises
TypeError, and with both kinds present some cross-kind comparison always
happens during run detection or binary insertion, so the call raises exactly
when both kinds occur among the keys. Otherwise Timsort sorts stably,
modeled by insertionSort; reverse=True is reverse, ascending sort, reverse,
which is what CPython does internally. -/
def pySortedByKey (key : PyModule → PyKey) (rev : Bool) (ms : List PyModule) :
    Except PyError (List PyModule) :=
  if (ms.map key).any PyKey.isInt && (ms.map key).any PyKey.isStr then
    .error .typeError
  else if rev then .ok ((ms.reverse.insertionSort (keyRel key)).reverse)
  else .ok (ms.insertionSort (keyRel key))

/-- sort_modules of list_kernel_modules.py. -/
def sort_modules (modules : List PyModule) (sort_by : String) (rev : Bool) :
    Except PyError (List PyModule) :=
  pySortedByKey (sort_key sort_by) rev modules

/-- The reconciled catalog: the three sequences main and modules_to_html
hand to the formatters. -/
structure Catalog where
  loaded : List KernelModule
  builtin : List BuiltinModule
  unloaded : List UnloadedModule
deriving Repr, DecidableEq

/-- Every input of one inventory pass: the loaded-module listing feeds both
parse_proc_modules and get_loadable_module_names, exactly as the two reads
of the same file do in the source. -/
structure PipelineEnv where
  enrich : Enrich
  procModulesLines : List String
  modulesBuiltinExists : Bool
  modulesBuiltinLines : List String
  configNames : List String
  modinfoModules : List BuiltinModule
  dirExists : Bool
  files : List DiskFile
  descOf : String → String

/-- The builtin-source slice of the pipeline inputs. -/
def PipelineEnv.builtinEnv (e : PipelineEnv) : BuiltinEnv :=
  { procModulesLines := e.procModulesLines
    modulesBuiltinExists := e.modulesBuiltinExists
    modulesBuiltinLines := e.modulesBuiltinLines
    configNames := e.configNames
    modinfoModules := e.modinfoModules }

/-- One inventory pass of main: parse the loaded listing (fatal on error),
collect the builtin records, scan the disk for unloaded modules. -/
def build_catalog (e : PipelineEnv) : Except PyError Catalog :=
  match parse_proc_modules e.enrich e.procModulesLines with
  | .error err => .error err
  | .ok loaded =>
    .ok { loaded := loaded
          builtin := get_all_builtin_modules e.builtinEnv
          unloaded := get_unloaded_modules loaded e.dirExists e.files e.descOf }

/-- KernelModule of kernel_modules/models.py: eight constructor parameters,
no description field. -/
structure PkgKernelModule where
  name : String
  size : Int
  ref_count : Int
  dependencies : List String
  status : String
  address : String
  module_type : String
  file_path : String
deriving Repr, DecidableEq

/-- Number of non-self parameters models.KernelModule.__init__ accepts. -/
def pkgKernelModuleParamCount : Nat := 8

/-- Number of positional arguments the record-construction call in
kernel_modules/parsers.py passes to it: name, size, ref_count, dependencies,
status, address, "loadable", file_path, description. -/
def pkgParseCallArgCount : Nat := 9

/-- The record-construction call of ModuleParser.parse_proc_modules: calling
an __init__ with more positional arguments than it accepts raises TypeError
before any record exists. -/
def pkgMakeKernelModule (name : String) (size ref_count : Int)
    (dependencies : List String) (status address module_type file_path
    _description : String) : Except PyError PkgKernelModule :=
  if pkgParseCallArgCount ≤ pkgKernelModuleParamCount then
    .ok { name := name, size := size, ref_count := ref_count
          dependencies := dependencies, status := status, address := address
          module_type := module_type, file_path := file_path }
  else .error .typeError

/-- One iteration of the loop of ModuleParser.parse_proc_modules; the line
handling is the same as the script version, the record construction is the
nine-argument call. -/
def pkgParseLine (env : Enrich) (rawLine : String) :
    Except PyError (Option PkgKernelModule) :=
  if pyStrip rawLine = "" then .ok none
  else if (lineFields rawLine).length < 6 then .ok none
  else
    match pyInt ((lineFields rawLine).getD 1 ""),
        pyInt ((lineFields rawLine).getD 2 "") with
    | some size, some ref_count =>
      (pkgMakeKernelModule ((lineFields rawLine).getD 0 "") size ref_count
        (parseDeps ((lineFields rawLine).getD 3 ""))
        ((lineFields rawLine).getD 4 "") ((lineFields rawLine).getD 5 "")
        "loadable" (env.filePathOf ((lineFields rawLine).getD 0 ""))
        (env.descriptionOf ((lineFields rawLine).getD 0 ""))).map some
    | _, _ => .error .valueError

/-- ModuleParser.parse_proc_modules of the kernel_modules package; every
exception escapes the call (re-raised by its except clauses) with no
records. -/
def pkg_parse_proc_modules (env : Enrich) (lines : List String) :
    Except PyError (List PkgKernelModule) :=
  exceptLoop (pkgParseLine env) lines

/-! Order lemmas for the comparison functions. -/

theorem listCharLe_total : ∀ a b : List Char, listCharLe a b = true ∨ listCharLe b a = true
  | [], _ => Or.inl rfl
  | _ :: _, [] => Or.inr rfl
  | a :: as, b :: bs => by
    unfold listCharLe
    rcases Nat.lt_trichotomy a.toNat b.toNat with h | h | h
    · left
      simp [h]
    · have h1 : ¬ a.toNat < b.toNat := by omega
      have h2 : ¬ b.toNat < a.toNat := by omega
      simp only [h1, h2, if_false]
      exact listCharLe_total as bs
    · right
      simp [h]

theorem listCharLe_trans : ∀ a b c : List Char,
    listCharLe a b = true → listCharLe b c = true → listCharLe a c = true
  | [], _, _, _, _ => rfl
  | _ :: _, [], _, h1, _ => by simp [listCharLe] at h1
  | _ :: _, _ :: _, [], _, h2 => by simp [listCharLe] at h2
  | a :: as, b :: bs, c :: cs, h1, h2 => by
    unfold listCharLe at h1 h2 ⊢
    rcases Nat.lt_trichotomy a.toNat b.toNat with hab | hab | hab
    · rcases Nat.lt_trichotomy b.toNat c.toNat with hbc | hbc | hbc
      · have hlt : a.toNat < c.toNat := by omega
        simp [hlt]
      · have hlt : a.toNat < c.toNat := by omega
        simp [hlt]
      · have hnbc : ¬ b.toNat < c.toNat := by omega
        simp [hnbc, hbc] at h2
    · have hnab : ¬ a.toNat < b.toNat := by omega
      have hnba : ¬ b.toNat < a.toNat := by omega
      simp only [hnab, hnba, if_false] at h1
      rcases Nat.lt_trichotomy b.toNat c.toNat with hbc | hbc | hbc
      · have hlt : a.toNat < c.toNat := by omega
        simp [hlt]
      · have hnbc : ¬ b.toNat < c.toNat := by omega
        have hncb : ¬ c.toNat < b.toNat := by omega
        have hnac : ¬ a.toNat < c.toNat := by omega
        have hnca : ¬ c.toNat < a.toNat := by omega
        simp only [hnbc, hncb, if_false] at h2
        simp only [hnac, hnca, if_false]
        exact listCharLe_trans as bs cs h1 h2
      · have hnbc : ¬ b.toNat < c.toNat := by omega
        simp [hnbc, hbc] at h2
    · have hnab : ¬ a.toNat < b.toNat := by omega
      simp [hnab, hab] at h1

theorem pyStrLe_total (a b : String) : pyStrLe a b = true ∨ pyStrLe b a = true :=
  listCharLe_total a.data b.data

theorem pyStrLe_trans {a b c : String} (h1 : pyStrLe a b = true)
    (h2 : pyStrLe b c = true) : pyStrLe a c = true :=
  listCharLe_trans a.data b.data c.data h1 h2

instance : IsTotal UnloadedModule unloadedLe :=
  ⟨fun a b => pyStrLe_total a.name b.name⟩

instance : IsTrans UnloadedModule unloadedLe :=
  ⟨fun _ _ _ h1 h2 => pyStrLe_trans h1 h2⟩

theorem keyLe_total : ∀ a b : PyKey, keyLe a b = true ∨ keyLe b a = true
  | .int a, .int b => by
    rcases Int.le_total a b with h | h
    · left
      simp [keyLe, h]
    · right
      simp [keyLe, h]
  | .str a, .str b => pyStrLe_total a b
  | .int _, .str _ => Or.inl rfl
  | .str _, .int _ => Or.inr rfl

theorem keyLe_trans : ∀ a b c : PyKey,
    keyLe a b = true → keyLe b c = true → keyLe a c = true
  | .int _, .int _, .int _, h1, h2 => by
    simp only [keyLe, decide_eq_true_eq] at h1 h2 ⊢
    omega
  | .int _, .int _, .str _, _, _ => rfl
  | .int _, .str _, .int _, _, h2 => by simp [keyLe] at h2
  | .int _, .str _, .str _, _, _ => rfl
  | .str _, .int _, _, h1, _ => by simp [keyLe] at h1
  | .str _, .str _, .int _, _, h2 => by simp [keyLe] at h2
  | .str _, .str _, .str _, h1, h2 => pyStrLe_trans h1 h2

instance (key : PyModule → PyKey) : IsTotal PyModule (keyRel key) :=
  ⟨fun a b => keyLe_total (key a) (key b)⟩

instance (key : PyModule → PyKey) : IsTrans PyModule (keyRel key) :=
  ⟨fun _ _ _ h1 h2 => keyLe_trans _ _ _ h1 h2⟩

/-! Membership lemmas for the set model. -/

theorem mem_listInsert (l : List String) (x y : String) :
    y ∈ listInsert l x ↔ y ∈ l ∨ y = x := by
  unfold listInsert
  split
  · constructor
    · exact Or.inl
    · rintro (h | rfl)
      · exact h
      · assumption
  · simp

theorem mem_listUnion (a b : List String) (y : String) :
    y ∈ listUnion a b ↔ y ∈ a ∨ y ∈ b := by
  induction b generalizing a with
  | nil => simp [listUnion]
  | cons x xs ih =>
    show y ∈ listUnion (listInsert a x) xs ↔ _
    rw [ih, mem_listInsert]
    simp only [List.mem_cons]
    tauto

theorem mem_listDiff (a b : List String) (y : String) :
    y ∈ listDiff a b ↔ y ∈ a ∧ y ∉ b := by
  simp [listDiff]

/-! Lemmas about the line parser. -/

theorem pySplitWs_empty : pySplitWs "" = [] := rfl

theorem lineFields_ne_empty {line : String} (h : lineFields line ≠ []) :
    pyStrip line ≠ "" := by
  intro hs
  apply h
  unfold lineFields
  rw [hs, pySplitWs_empty]

/-- A line of six or more fields whose size or ref-count field does not
parse as an int makes parseLine raise the ValueError. -/
theorem parseLine_numBad (env : Enrich) (line : String)
    (h6 : 6 ≤ (lineFields line).length)
    (hbad : pyInt ((lineFields line).getD 1 "") = none ∨
      pyInt ((lineFields line).getD 2 "") = none) :
    parseLine env line = .error .valueError := by
  have hne : pyStrip line ≠ "" := by
    apply lineFields_ne_empty
    intro h
    rw [h] at h6
    simp at h6
  have hlen : ¬ (lineFields line).length < 6 := by omega
  unfold parseLine
  rw [if_neg hne, if_neg hlen]
  rcases h1 : pyInt ((lineFields line).getD 1 "") with _ | v1 <;>
    rcases h2 : pyInt ((lineFields line).getD 2 "") with _ | v2
  · rfl
  · rfl
  · rfl
  · exfalso
    rcases hbad with hb | hb
    · rw [h1] at hb
      cases hb
    · rw [h2] at hb
      cases hb

/-- Any line of six or more fields with well-formed size and ref-count makes
the package parseLine raise the TypeError of the nine-argument call. -/
theorem pkgParseLine_valid (env : Enrich) (line : String)
    (h6 : 6 ≤ (lineFields line).length)
    (h1 : pyInt ((lineFields line).getD 1 "") ≠ none)
    (h2 : pyInt ((lineFields line).getD 2 "") ≠ none) :
    pkgParseLine env line = .error .typeError := by
  have hne : pyStrip line ≠ "" := by
    apply lineFields_ne_empty
    intro h
    rw [h] at h6
    simp at h6
  rcases Option.ne_none_iff_exists.mp h1 with ⟨v1, hv1⟩
  rcases Option.ne_none_iff_exists.mp h2 with ⟨v2, hv2⟩
  have hlen : ¬ (lineFields line).length < 6 := by omega
  unfold pkgParseLine
  rw [if_neg hne, if_neg hlen, ← hv1, ← hv2]
  rfl

/-- The package parseLine never yields a record. -/
theorem pkgParseLine_ne_some (env : Enrich) (line : String)
    (m : PkgKernelModule) : pkgParseLine env line ≠ .ok (some m) := by
  unfold pkgParseLine
  split
  · intro h
    cases h
  · split
    · intro h
      cases h
    · split
      · intro h
        exact Except.noConfusion h
      · intro h
        cases h

/-- A line on which the step function raises makes the whole loop raise. -/
theorem exceptLoop_error_of_mem {β : Type}
    (f : String → Except PyError (Option β)) (lines : List String)
    (line : String) (hmem : line ∈ lines) (e : PyError)
    (hbad : f line = .error e) : ∃ eo, exceptLoop f lines = .error eo := by
  induction lines with
  | nil => cases hmem
  | cons hd tl ih =>
    rcases List.mem_cons.mp hmem with rfl | htl
    · exact ⟨e, by unfold exceptLoop; rw [hbad]⟩
    · rcases hf : f hd with e2 | o
      · exact ⟨e2, by unfold exceptLoop; rw [hf]⟩
      · rcases ih htl with ⟨eo, heo⟩
        rcases o with _ | m
        · exact ⟨eo, by unfold exceptLoop; rw [hf]; exact heo⟩
        · exact ⟨eo, by unfold exceptLoop; rw [hf, heo]; rfl⟩

/-- Inversion of a successful loop step on a cons cell. -/
theorem exceptLoop_ok_cons {β : Type}
    (f : String → Except PyError (Option β)) (hd : String) (tl : List String)
    (l : List β) (hok : exceptLoop f (hd :: tl) = .ok l) :
    (f hd = .ok none ∧ exceptLoop f tl = .ok l) ∨
    (∃ m l2, f hd = .ok (some m) ∧ exceptLoop f tl = .ok l2 ∧ l = m :: l2) := by
  rcases hf : f hd with e | o
  · rw [exceptLoop, hf] at hok
    cases hok
  · rcases o with _ | m
    · left
      rw [exceptLoop, hf] at hok
      exact ⟨rfl, hok⟩
    · right
      rw [exceptLoop, hf] at hok
      rcases htl : exceptLoop f tl with e2 | l2
      · rw [htl] at hok
        cases hok
      · rw [htl] at hok
        refine ⟨m, l2, rfl, rfl, ?_⟩
        cases hok
        rfl

/-- Inversion of a successful parseLine: the record carries the first field
of the line as its name, and the line had six or more fields. -/
theorem parseLine_ok_some (env : Enrich) (line : String) (m : KernelModule)
    (h : parseLine env line = .ok (some m)) :
    pyStrip line ≠ "" ∧ ¬ (lineFields line).length < 6 ∧
      m.name = (lineFields line).getD 0 "" := by
  unfold parseLine at h
  by_cases h0 : pyStrip line = ""
  · rw [if_pos h0] at h
    simp at h
  · rw [if_neg h0] at h
    by_cases h6 : (lineFields line).length < 6
    · rw [if_pos h6] at h
      simp at h
    · rw [if_neg h6] at h
      refine ⟨h0, h6, ?_⟩
      rcases hx : pyInt ((lineFields line).getD 1 "") with _ | v1 <;>
        rcases hy : pyInt ((lineFields line).getD 2 "") with _ | v2 <;>
        rw [hx, hy] at h
      · cases h
      · cases h
      · cases h
      · cases h
        rfl

/-- Membership through the accumulator of the loaded-name fold. -/
theorem mem_foldl_loadStep (ls : List String) (acc : List String) (x : String) :
    x ∈ ls.foldl loadStep acc ↔ x ∈ acc ∨ x ∈ ls.foldl loadStep [] := by
  induction ls generalizing acc with
  | nil => simp
  | cons l ls ih =>
    show x ∈ ls.foldl loadStep (loadStep acc l) ↔
      x ∈ acc ∨ x ∈ ls.foldl loadStep (loadStep [] l)
    rw [ih (loadStep acc l), ih (loadStep [] l)]
    have hstep : ∀ a : List String, x ∈ loadStep a l ↔ x ∈ a ∨ x ∈ loadStep [] l := by
      intro a
      unfold loadStep
      by_cases hl : pyStrip l ≠ ""
      · rw [if_pos hl, if_pos hl]
        rcases hf : pySplitWs (pyStrip l) with _ | ⟨w, rest⟩
        · simp
        · rw [mem_listInsert, mem_listInsert]
          simp
      · rw [if_neg hl, if_neg hl]
        simp
    rw [hstep acc]
    tauto

/-- Every record returned by parse_proc_modules carries a name that
get_loadable_module_names also collects from the same listing. -/
theorem parse_names_mem (env : Enrich) (lines : List String)
    (l : List KernelModule) (hok : parse_proc_modules env lines = .ok l)
    (m : KernelModule) (hm : m ∈ l) :
    m.name ∈ get_loadable_module_names lines := by
  unfold parse_proc_modules at hok
  unfold get_loadable_module_names
  induction lines generalizing l with
  | nil =>
    cases hok
    cases hm
  | cons hd tl ih =>
    rcases exceptLoop_ok_cons _ hd tl l hok with ⟨_, htl⟩ | ⟨m2, l2, hsome, htl, rfl⟩
    · show m.name ∈ tl.foldl loadStep (loadStep [] hd)
      rw [mem_foldl_loadStep]
      exact Or.inr (ih l htl hm)
    · rcases List.mem_cons.mp hm with rfl | hm2
      · rcases parseLine_ok_some env hd m hsome with ⟨hne, h6, hname⟩
        show m.name ∈ tl.foldl loadStep (loadStep [] hd)
        rw [mem_foldl_loadStep]
        left
        unfold loadStep
        rw [if_pos hne]
        rcases hf : lineFields hd with _ | ⟨w, rest⟩
        · rw [hf] at h6
          simp at h6
        · have hf2 : pySplitWs (pyStrip hd) = w :: rest := hf
          rw [hf2]
          rw [hf] at hname
          simp [listInsert, hname]
      · show m.name ∈ tl.foldl loadStep (loadStep [] hd)
        rw [mem_foldl_loadStep]
        exact Or.inr (ih l2 htl hm2)

/-! Lemmas about the disk scan. -/

/-- The per-file selection of the scan, as an Option. -/
def scanSel (ln : List String) (descOf : String → String) (f : DiskFile) :
    Option UnloadedModule :=
  if deriveModuleName f.path ∈ ln then none else some (mkUnloaded descOf f)

theorem foldl_scanStep_eq (ln : List String) (descOf : String → String)
    (files : List DiskFile) (acc : List UnloadedModule) :
    files.foldl (scanStep ln descOf) acc = acc ++ files.filterMap (scanSel ln descOf) := by
  induction files generalizing acc with
  | nil => simp
  | cons f fs ih =>
    show fs.foldl (scanStep ln descOf) (scanStep ln descOf acc f) = _
    rw [ih]
    unfold scanStep scanSel
    by_cases hm : deriveModuleName f.path ∈ ln
    · rw [if_pos hm]
      simp [hm]
    · rw [if_neg hm]
      simp [hm]

theorem get_unloaded_modules_false (loaded : List KernelModule)
    (files : List DiskFile) (descOf : String → String) :
    get_unloaded_modules loaded false files descOf = [] := rfl

theorem get_unloaded_modules_true (loaded : List KernelModule)
    (files : List DiskFile) (descOf : String → String) :
    get_unloaded_modules loaded true files descOf =
      (files.filterMap (scanSel (loaded.map (fun m => m.name)) descOf)).insertionSort
        unloadedLe := by
  show (files.foldl (scanStep (loaded.map (fun m => m.name)) descOf) []).insertionSort
      unloadedLe = _
  rw [foldl_scanStep_eq]
  rfl

/-- No record of the scan result carries a currently loaded name. -/
theorem unloaded_name_not_loaded (loaded : List KernelModule) (dirE : Bool)
    (files : List DiskFile) (descOf : String → String) (r : UnloadedModule)
    (hr : r ∈ get_unloaded_modules loaded dirE files descOf) :
    r.name ∉ loaded.map (fun m => m.name) := by
  cases dirE
  · rw [get_unloaded_modules_false] at hr
    cases hr
  · rw [get_unloaded_modules_true] at hr
    have hmem := (List.perm_insertionSort unloadedLe _).mem_iff.mp hr
    rcases List.mem_filterMap.mp hmem with ⟨f, _, hsel⟩
    unfold scanSel at hsel
    by_cases hm : deriveModuleName f.path ∈ loaded.map (fun m => m.name)
    · rw [if_pos hm] at hsel
      cases hsel
    · rw [if_neg hm] at hsel
      cases hsel
      exact hm

/-! Lemmas about dependency parsing and the builtin sources. -/

theorem parseDeps_eq (s : String) :
    parseDeps s =
      if s = "-" then [] else ((pySplitComma s).map pyStrip).filter depKeep := by
  unfold parseDeps
  by_cases h : s = "-"
  · rw [if_pos h, if_pos h]
  · rw [if_neg h, if_neg h, List.filter_map]
    rfl

theorem builtinPick_name (env : BuiltinEnv) (n : String) :
    (builtinPick env n).name = n := by
  unfold builtinPick
  rcases hf : env.modinfoModules.find? (fun m => m.name == n) with _ | m
  · rw [hf]
    rfl
  · rw [hf]
    have hbeq := List.find?_some hf
    simpa using hbeq

theorem get_all_builtin_names (env : BuiltinEnv) :
    (get_all_builtin_modules env).map (fun b => b.name) = builtinModuleNames env := by
  unfold get_all_builtin_modules
  rw [List.map_map]
  have hmap := List.map_congr_left
    (fun n (_ : n ∈ builtinModuleNames env) =>
      show ((fun b => b.name) ∘ builtinPick env) n = id n from builtinPick_name env n)
  rw [hmap, List.map_id]

/-! Concrete fixtures used by counterexamples and witnesses. -/

/-- Enrichment oracle with every collaborator degraded to its default. -/
def enrichTriv : Enrich :=
  { filePathOf := fun _ => "", descriptionOf := fun _ => "", signedOf := fun _ => none }

/-- A concrete loaded record for sort fixtures. -/
def kW : KernelModule :=
  { name := "kmod", size := 4, ref_count := 2, dependencies := [], status := "Live",
    address := "0x1", module_type := "loadable", file_path := "", description := "",
    signed := "Unknown" }

/-- A concrete builtin record for sort fixtures. -/
def bW : BuiltinModule := mkBuiltin "bmod"

/-! The claims. -/

/-- Modelled from the spec, section 4.1, for comparison with the code (C3):
split on commas, trim whitespace, and drop any token beginning with a
bracket, keeping the order. -/
def specParseDeps (s : String) : List String :=
  if s = "-" then []
  else ((pySplitComma s).map pyStrip).filter (fun t => !(strStarts t '['))

/-- The amended reading for C3: empty tokens are dropped as well. -/
def specParseDepsAmended (s : String) : List String :=
  if s = "-" then []
  else ((pySplitComma s).map pyStrip).filter depKeep

/-- C3 counterexample: on the field "a,,b" the code yields two tokens while
the claimed split-trim-drop-brackets procedure keeps the empty token, so the
claim as stated fails on the code. -/
theorem C3_counterexample :
    parseDeps "a,,b" = ["a", "b"] ∧ specParseDeps "a,,b" = ["a", "", "b"] ∧
      parseDeps "a,,b" ≠ specParseDeps "a,,b" := by
  refine ⟨by decide, by decide, by decide⟩

/-- C3 amended: a dependency field of "-" yields the empty list, and any
other field is split on commas, trimmed, with empty tokens and tokens
beginning with a bracket dropped, the remaining tokens in source order. -/
theorem C3_dependency_parsing_amended (s : String) :
    parseDeps s = specParseDepsAmended s :=
  parseDeps_eq s

/-- C4: a listing containing a line of six or more fields whose size or
ref-count field is not a base-10 int makes the whole loaded-module source
call fail with no records at all. -/
theorem C4_malformed_numeric_fatal (env : Enrich) (lines : List String)
    (line : String) (hmem : line ∈ lines)
    (h6 : 6 ≤ (lineFields line).length)
    (hbad : pyInt ((lineFields line).getD 1 "") = none ∨
      pyInt ((lineFields line).getD 2 "") = none) :
    ∃ e, parse_proc_modules env lines = .error e :=
  exceptLoop_error_of_mem _ lines line hmem _ (parseLine_numBad env line h6 hbad)

/-- C4 witness at a concrete two-line listing whose second line has the
malformed size field 12x. -/
theorem C4_witness :
    ("bad 12x 0 - Live 0x0" ∈ ["ok 1 1 - Live 0x0", "bad 12x 0 - Live 0x0"] ∧
      6 ≤ (lineFields "bad 12x 0 - Live 0x0").length) ∧
    ∃ e, parse_proc_modules enrichTriv
      ["ok 1 1 - Live 0x0", "bad 12x 0 - Live 0x0"] = .error e :=
  ⟨⟨by decide, by decide⟩,
    C4_malformed_numeric_fatal enrichTriv _ "bad 12x 0 - Live 0x0" (by decide)
      (by decide) (Or.inl (by decide))⟩

/-- C8 counterexample: the line with dependency field "a,a" parses into a
record whose dependency list keeps the duplicate, refuting the claim that
duplicates are removed. -/
theorem C8_counterexample :
    ∃ m, parse_proc_modules enrichTriv ["mymod 8 1 a,a Live 0x0"] = .ok [m] ∧
      m.dependencies = ["a", "a"] ∧ ¬ m.dependencies.Nodup := by
  refine ⟨_, rfl, by decide, by decide⟩

/-- C8 amended: the dependency list preserves the source order (it is a
sublist of the trimmed comma tokens) and retains every occurrence of every
kept token, so duplicates are kept rather than removed. -/
theorem C8_dependencies_order_amended (s : String) (h : s ≠ "-") :
    (parseDeps s).Sublist ((pySplitComma s).map pyStrip) ∧
    ∀ x, depKeep x = true →
      (parseDeps s).count x = ((pySplitComma s).map pyStrip).count x := by
  rw [parseDeps_eq, if_neg h]
  exact ⟨List.filter_sublist _, fun x hx => List.count_filter hx⟩

/-- C8 witness at the field "a,a": both tokens survive. -/
theorem C8_amended_witness :
    (("a,a" : String) ≠ "-" ∧ depKeep "a" = true) ∧
    (parseDeps "a,a").Sublist ((pySplitComma "a,a").map pyStrip) ∧
    (parseDeps "a,a").count "a" = ((pySplitComma "a,a").map pyStrip).count "a" :=
  ⟨⟨by decide, by decide⟩,
    (C8_dependencies_order_amended "a,a" (by decide)).1,
    (C8_dependencies_order_amended "a,a" (by decide)).2 "a" (by decide)⟩

/-- C9: on any listing containing a line of six or more fields with
well-formed size and ref-count, the package parser raises (the
record-construction call passes nine positional arguments to an __init__
accepting eight) and returns no record. -/
theorem C9_pkg_parser_raises (env : Enrich) (lines : List String)
    (line : String) (hmem : line ∈ lines)
    (h6 : 6 ≤ (lineFields line).length)
    (h1 : pyInt ((lineFields line).getD 1 "") ≠ none)
    (h2 : pyInt ((lineFields line).getD 2 "") ≠ none) :
    ∃ e, pkg_parse_proc_modules env lines = .error e :=
  exceptLoop_error_of_mem _ lines line hmem _
    (pkgParseLine_valid env line h6 h1 h2)

/-- C9 witness at a fully well-formed one-line listing. -/
theorem C9_witness :
    ("mymod 8 1 - Live 0x0" ∈ ["mymod 8 1 - Live 0x0"] ∧
      6 ≤ (lineFields "mymod 8 1 - Live 0x0").length) ∧
    ∃ e, pkg_parse_proc_modules enrichTriv ["mymod 8 1 - Live 0x0"] = .error e :=
  ⟨⟨by decide, by decide⟩,
    C9_pkg_parser_raises enrichTriv _ "mymod 8 1 - Live 0x0" (by decide)
      (by decide) (by decide) (by decide)⟩

/-- C10: the empty name pattern is falsy, so it disables name filtering
entirely; filtering with it equals filtering with no pattern at all, for
every glob matcher and every record list. -/
theorem C10_empty_pattern_no_filter (fnmatchFn : String → String → Bool)
    (ms : List PyModule) (min_size max_size min_refs : Option Int)
    (status : Option String) :
    filter_modules fnmatchFn ms (some "") min_size max_size min_refs status =
      filter_modules fnmatchFn ms none min_size max_size min_refs status := by
  unfold filter_modules
  apply List.filter_congr
  intro m _
  rfl

/-- C6: a record that is not a KernelModule is kept by filter_modules
exactly when it passes the name test, whatever the size, refcount and
status criteria are; a KernelModule is kept exactly when it passes the name
test and all of those criteria. -/
theorem C6_filter_asymmetry (fnmatchFn : String → String → Bool)
    (ms : List PyModule) (pat : Option String)
    (min_size max_size min_refs : Option Int) (status : Option String)
    (m : PyModule) (hm : m ∈ ms) :
    (m.isKernel = false →
      (m ∈ filter_modules fnmatchFn ms pat min_size max_size min_refs status ↔
        passesName fnmatchFn pat m = true)) ∧
    (∀ k, m = PyModule.kernel k →
      (m ∈ filter_modules fnmatchFn ms pat min_size max_size min_refs status ↔
        passesName fnmatchFn pat m = true ∧
          kernelCrit min_size max_size min_refs status k = true)) := by
  have hfilter : ∀ p : PyModule → Bool, m ∈ ms.filter p ↔ p m = true := by
    intro p
    rw [List.mem_filter]
    exact and_iff_right hm
  constructor
  · intro hk
    unfold filter_modules
    rw [hfilter]
    cases m with
    | kernel k => simp [PyModule.isKernel] at hk
    | builtin b => simp
    | unloaded u => simp
  · rintro k rfl
    unfold filter_modules
    rw [hfilter]
    simp [Bool.and_eq_true]

/-- C6 witness: a builtin record passes a min-size filter unconditionally. -/
theorem C6_witness :
    PyModule.builtin bW ∈
        filter_modules (fun _ _ => true) [PyModule.builtin bW] none (some 10)
          none none none ↔
      passesName (fun _ _ => true) none (PyModule.builtin bW) = true :=
  (C6_filter_asymmetry (fun _ _ => true) [PyModule.builtin bW] none (some 10)
    none none none (PyModule.builtin bW) (by decide)).1 rfl

/-- C2: when the authoritative modules.builtin file yields names, they are
exactly the builtin record names; when it yields nothing, membership is the
union of the config and modinfo fallback names minus every currently loaded
name. -/
theorem C2_builtin_membership_priority (env : BuiltinEnv) :
    (get_builtin_modules_from_modules_builtin env ≠ [] →
      (get_all_builtin_modules env).map (fun b => b.name) =
        get_builtin_modules_from_modules_builtin env) ∧
    (get_builtin_modules_from_modules_builtin env = [] →
      ∀ n, n ∈ (get_all_builtin_modules env).map (fun b => b.name) ↔
        ((n ∈ env.configNames ∨ n ∈ env.modinfoModules.map (fun m => m.name)) ∧
          n ∉ get_loadable_module_names env.procModulesLines)) := by
  constructor
  · intro h
    rw [get_all_builtin_names]
    unfold builtinModuleNames
    rw [if_neg h]
  · intro h n
    rw [get_all_builtin_names]
    unfold builtinModuleNames
    rw [if_pos h, h, mem_listDiff, mem_listUnion, mem_listUnion]
    simp

/-- Builtin-source fixture where the authoritative file yields a name. -/
def envC2 : BuiltinEnv :=
  { procModulesLines := [], modulesBuiltinExists := true,
    modulesBuiltinLines := ["kernel/fs/ext4/ext4.ko"], configNames := [],
    modinfoModules := [] }

/-- Builtin-source fixture on the fallback path: no authoritative file, one
config name, one modinfo name that is currently loaded. -/
def envC2F : BuiltinEnv :=
  { procModulesLines := ["ldm 4 0 - Live 0x0"], modulesBuiltinExists := false,
    modulesBuiltinLines := [], configNames := ["btfoo"],
    modinfoModules := [mkBuiltin "ldm"] }

/-- C2 witness: both reconciliation paths at concrete inputs. -/
theorem C2_witness :
    ((get_all_builtin_modules envC2).map (fun b => b.name) =
      get_builtin_modules_from_modules_builtin envC2) ∧
    ("btfoo" ∈ (get_all_builtin_modules envC2F).map (fun b => b.name) ↔
      (("btfoo" ∈ envC2F.configNames ∨
          "btfoo" ∈ envC2F.modinfoModules.map (fun m => m.name)) ∧
        "btfoo" ∉ get_loadable_module_names envC2F.procModulesLines)) :=
  ⟨(C2_builtin_membership_priority envC2).1 (by decide),
    (C2_builtin_membership_priority envC2F).2 (by decide) "btfoo"⟩

/-- C7: the scan yields the empty sequence when the module directory is
missing, never reports a name that is currently loaded, keeps a file whose
stat failed with size zero, and returns its records sorted by name
ascending. -/
theorem C7_unloaded_scan (loaded : List KernelModule) (files : List DiskFile)
    (descOf : String → String) :
    get_unloaded_modules loaded false files descOf = [] ∧
    (∀ r ∈ get_unloaded_modules loaded true files descOf,
      r.name ∉ loaded.map (fun m => m.name)) ∧
    (∀ f ∈ files, deriveModuleName f.path ∉ loaded.map (fun m => m.name) →
      f.statSize = none →
      mkUnloaded descOf f ∈ get_unloaded_modules loaded true files descOf ∧
        (mkUnloaded descOf f).size = 0) ∧
    (get_unloaded_modules loaded true files descOf).Pairwise unloadedLe := by
  refine ⟨rfl, ?_, ?_, ?_⟩
  · exact fun r hr => unloaded_name_not_loaded loaded true files descOf r hr
  · intro f hf hnm hstat
    constructor
    · rw [get_unloaded_modules_true]
      apply (List.perm_insertionSort unloadedLe _).mem_iff.mpr
      apply List.mem_filterMap.mpr
      refine ⟨f, hf, ?_⟩
      unfold scanSel
      rw [if_neg hnm]
    · show f.statSize.getD 0 = 0
      rw [hstat]
      rfl
  · rw [get_unloaded_modules_true]
    exact List.sorted_insertionSort unloadedLe _

/-- C7 witness: a stat-failed file on disk with nothing loaded. -/
theorem C7_witness :
    ((⟨"b.ko", none⟩ : DiskFile) ∈ [(⟨"b.ko", none⟩ : DiskFile)]) ∧
    (mkUnloaded (fun _ => "") ⟨"b.ko", none⟩ ∈
        get_unloaded_modules [] true [⟨"b.ko", none⟩] (fun _ => "") ∧
      (mkUnloaded (fun _ => "") ⟨"b.ko", none⟩).size = 0) :=
  ⟨by decide,
    (C7_unloaded_scan [] [⟨"b.ko", none⟩] (fun _ => "")).2.2.1 ⟨"b.ko", none⟩
      (by decide) (by decide) rfl⟩

/-- C5 counterexample: sorting a mixed collection by size raises the
TypeError of an int-to-str comparison instead of succeeding with a name
fallback. -/
theorem C5_counterexample :
    sort_modules [PyModule.kernel kW, PyModule.builtin bW] "size" false =
      .error .typeError := rfl

/-- C5 amended: on a collection holding both a LoadedModule and a
non-LoadedModule record, sorting by size or refs raises a TypeError, while
sorting by status succeeds as a stable permutation ordered by the keys, and
the key of every non-LoadedModule record falls back to its lower-cased
name under all three fields. -/
theorem C5_mixed_sort_amended (ms : List PyModule) (rev : Bool)
    (mk mb : PyModule) (hmk : mk ∈ ms) (hmb : mb ∈ ms)
    (hk : mk.isKernel = true) (hb : mb.isKernel = false) :
    sort_modules ms "size" rev = .error .typeError ∧
    sort_modules ms "refs" rev = .error .typeError ∧
    (∃ l, sort_modules ms "status" rev = .ok l ∧ l.Perm ms ∧
      (rev = false → l.Pairwise (keyRel (sort_key "status")))) ∧
    (∀ m : PyModule, m.isKernel = false →
      sort_key "size" m = .str (pyLower m.name) ∧
      sort_key "refs" m = .str (pyLower m.name) ∧
      sort_key "status" m = .str (pyLower m.name)) := by
  obtain ⟨k, rfl⟩ : ∃ k, mk = PyModule.kernel k := by
    cases mk with
    | kernel k => exact ⟨k, rfl⟩
    | builtin b => simp [PyModule.isKernel] at hk
    | unloaded u => simp [PyModule.isKernel] at hk
  have hbs : PyKey.isStr (sort_key "size" mb) = true ∧
      PyKey.isStr (sort_key "refs" mb) = true := by
    cases mb with
    | kernel k2 => simp [PyModule.isKernel] at hb
    | builtin b => exact ⟨rfl, rfl⟩
    | unloaded u => exact ⟨rfl, rfl⟩
  refine ⟨?_, ?_, ?_, ?_⟩
  · have hint : (ms.map (sort_key "size")).any PyKey.isInt = true :=
      List.any_eq_true.mpr
        ⟨sort_key "size" (PyModule.kernel k), List.mem_map_of_mem _ hmk, rfl⟩
    have hstr : (ms.map (sort_key "size")).any PyKey.isStr = true :=
      List.any_eq_true.mpr
        ⟨sort_key "size" mb, List.mem_map_of_mem _ hmb, hbs.1⟩
    unfold sort_modules pySortedByKey
    rw [hint, hstr]
    rfl
  · have hint : (ms.map (sort_key "refs")).any PyKey.isInt = true :=
      List.any_eq_true.mpr
        ⟨sort_key "refs" (PyModule.kernel k), List.mem_map_of_mem _ hmk, rfl⟩
    have hstr : (ms.map (sort_key "refs")).any PyKey.isStr = true :=
      List.any_eq_true.mpr
        ⟨sort_key "refs" mb, List.mem_map_of_mem _ hmb, hbs.2⟩
    unfold sort_modules pySortedByKey
    rw [hint, hstr]
    rfl
  · have hnoint : (ms.map (sort_key "status")).any PyKey.isInt = false := by
      apply List.any_eq_false.mpr
      intro x hx
      rcases List.mem_map.mp hx with ⟨m, _, rfl⟩
      cases m <;> simp [sort_key, PyKey.isInt]
    unfold sort_modules pySortedByKey
    rw [hnoint]
    cases rev with
    | false =>
      refine ⟨_, rfl, List.perm_insertionSort _ _, fun _ => ?_⟩
      exact List.sorted_insertionSort (keyRel (sort_key "status")) ms
    | true =>
      refine ⟨_, rfl, ?_, ?_⟩
      · exact ((List.reverse_perm _).trans
          (List.perm_insertionSort _ _)).trans (List.reverse_perm ms)
      · intro hfalse
        cases hfalse
  · intro m hm
    cases m with
    | kernel k2 => simp [PyModule.isKernel] at hm
    | builtin b => exact ⟨rfl, rfl, rfl⟩
    | unloaded u => exact ⟨rfl, rfl, rfl⟩

/-- C5 witness: the concrete mixed two-element collection. -/
theorem C5_amended_witness :
    (PyModule.kernel kW ∈ [PyModule.kernel kW, PyModule.builtin bW] ∧
      PyModule.builtin bW ∈ [PyModule.kernel kW, PyModule.builtin bW]) ∧
    sort_modules [PyModule.kernel kW, PyModule.builtin bW] "refs" false =
      .error .typeError :=
  ⟨⟨by decide, by decide⟩,
    (C5_mixed_sort_amended [PyModule.kernel kW, PyModule.builtin bW] false
      (PyModule.kernel kW) (PyModule.builtin bW) (by decide) (by decide)
      rfl rfl).2.1⟩

/-- Pipeline fixture where the loaded listing and the authoritative builtin
file both report ext4, the builtin file also reports ccm, and a ccm module
file sits on disk while ccm is not loaded. -/
def envC1 : PipelineEnv :=
  { enrich := enrichTriv
    procModulesLines := ["ext4 16384 0 - Live 0x0000000000000000"]
    modulesBuiltinExists := true
    modulesBuiltinLines := ["kernel/fs/ext4/ext4.ko", "kernel/crypto/ccm.ko"]
    configNames := []
    modinfoModules := []
    dirExists := true
    files := [⟨"k/ccm.ko", some 2⟩]
    descOf := fun _ => "" }

/-- C1 counterexample, refuting both disjointness conjuncts of the claim:
with a nonempty authoritative builtin file the loaded name ext4 stays in the
builtin result, so the catalog carries it under both loaded and builtin; and
the disk scan subtracts only loaded names, never builtin names, so the
builtin name ccm also appears under unloaded. -/
theorem C1_counterexample :
    ∃ cat, build_catalog envC1 = .ok cat ∧
      ("ext4" ∈ cat.loaded.map (fun m => m.name) ∧
        "ext4" ∈ cat.builtin.map (fun b => b.name)) ∧
      ("ccm" ∈ cat.builtin.map (fun b => b.name) ∧
        "ccm" ∈ cat.unloaded.map (fun r => r.name)) := by
  refine ⟨_, rfl, ⟨?_, ?_⟩, ⟨?_, ?_⟩⟩ <;> decide

/-- C1 amended: in every successfully built catalog the unloaded set never
shares a name with the loaded set, and when the builtin membership comes
from the fallback path (the authoritative file yields nothing) the builtin
set shares no name with the loaded set either. These are the only
disjointness guarantees the code gives: the counterexample shows a name in
both loaded and builtin on the authoritative path, and a name in both
builtin and unloaded, since the scan subtracts only loaded names. -/
theorem C1_loaded_precedence_amended (e : PipelineEnv) (cat : Catalog)
    (hok : build_catalog e = .ok cat) :
    (∀ r ∈ cat.unloaded, r.name ∉ cat.loaded.map (fun m => m.name)) ∧
    (get_builtin_modules_from_modules_builtin e.builtinEnv = [] →
      ∀ b ∈ cat.builtin, b.name ∉ cat.loaded.map (fun m => m.name)) := by
  unfold build_catalog at hok
  rcases hp : parse_proc_modules e.enrich e.procModulesLines with err | loaded
  · rw [hp] at hok
    cases hok
  · rw [hp] at hok
    cases hok
    constructor
    · intro r hr
      exact unloaded_name_not_loaded loaded e.dirExists e.files e.descOf r hr
    · intro hfb b hb hmem
      rcases List.mem_map.mp hmem with ⟨m, hm, hname⟩
      have hload : b.name ∈ get_loadable_module_names e.procModulesLines := by
        have hn := parse_names_mem e.enrich e.procModulesLines loaded hp m hm
        rwa [hname] at hn
      have hbn : b.name ∈ builtinModuleNames e.builtinEnv := by
        rw [← get_all_builtin_names]
        exact List.mem_map_of_mem _ hb
      unfold builtinModuleNames at hbn
      rw [if_pos hfb, mem_listDiff] at hbn
      exact hbn.2 hload

/-- Pipeline fixture on the fallback path with one loaded module, one config
builtin name and one on-disk file. -/
def envC1W : PipelineEnv :=
  { enrich := enrichTriv
    procModulesLines := ["ldm 4 0 - Live 0x0"]
    modulesBuiltinExists := false
    modulesBuiltinLines := []
    configNames := ["btfoo"]
    modinfoModules := [mkBuiltin "ldm"]
    dirExists := true
    files := [⟨"k/ldm.ko", some 3⟩, ⟨"k/other.ko", some 4⟩]
    descOf := fun _ => "" }

/-- The loaded record the fallback fixture parses. -/
def ldmRec : KernelModule :=
  { name := "ldm", size := 4, ref_count := 0, dependencies := [],
    status := "Live", address := "0x0", module_type := "loadable",
    file_path := "", description := "", signed := "Unknown" }

/-- The unloaded record the fallback fixture scans. -/
def otherRec : UnloadedModule :=
  { name := "other", file_path := "k/other.ko", size := 4, description := "" }

/-- The catalog the fallback fixture builds. -/
def catW : Catalog :=
  { loaded := [ldmRec], builtin := [mkBuiltin "btfoo"], unloaded := [otherRec] }

/-- C1 witness: the amended disjointness at the concrete fallback
fixture. -/
theorem C1_amended_witness :
    build_catalog envC1W = .ok catW ∧
    otherRec.name ∉ catW.loaded.map (fun m => m.name) ∧
    (mkBuiltin "btfoo").name ∉ catW.loaded.map (fun m => m.name) :=
  ⟨rfl,
    (C1_loaded_precedence_amended envC1W catW rfl).1 otherRec (by decide),
    (C1_loaded_precedence_amended envC1W catW rfl).2 (by decide)
      (mkBuiltin "btfoo") (by decide)⟩

end KMod
